import Mathlib

/-!
# Verification of the image/logo pipeline (`app.py`)

Shallow embedding of the core pipeline of the repository:

* `resize_image`        — canvas normalization (app.py lines 10–34);
* `get_accent_color`    — k-means based accent-color extraction and the
  vibrancy selection chain (app.py lines 36–92);
* `svg_to_png` fallback — the procedural logo drawing branch (app.py lines
  136–221);
* `add_logo_to_image`   — bottom-right anchored alpha paste (app.py lines
  230–245).

Conventions of the embedding:

* Python/NumPy floating point arithmetic is modelled over `ℚ` (exact
  rationals); `int(...)` truncation of a non-negative value is `Int.floor`
  (on `ℕ` it is `Nat` division).
* A pixel is a tuple of natural-number channels, as in PIL.
* The external `sklearn.cluster.KMeans` call (seeded with
  `random_state=0`) is modelled in two complementary ways: as an arbitrary
  fixed function from the sampled pixel list to a centroid list
  (determinism of the seeded library call), and relationally through the
  k-means invariant that each returned centroid is the mean of one block
  of a partition of the sample.  `KMeans.fit` raises `ValueError` exactly
  when the number of samples is smaller than the number of clusters; this
  is the `none` branch of the embedded extractor.
* The PIL `Image.paste` blend with an alpha mask is embedded with the
  exact fixed-point formula used by PIL
  (`MULDIV255(in1, 255 - mask) + MULDIV255(in2, mask)` with
  `MULDIV255(a, b) = ((a*b + 128) >> 8 + (a*b + 128)) >> 8`).
* PIL polygon rasterization is modelled by even–odd ray crossing
  membership of the integer pixel coordinate.
-/

set_option linter.unusedVariables false

/-- An RGB pixel / centroid: three 8-bit channels, as Python tuples. -/
abbrev RGB : Type := ℕ × ℕ × ℕ

/-- An RGBA pixel: four 8-bit channels. -/
abbrev RGBA : Type := ℕ × ℕ × ℕ × ℕ

/-- The alpha channel of an RGBA pixel. -/
def alphaOf (p : RGBA) : ℕ := p.2.2.2

/-! ## Accent-color selection (app.py lines 54–92)

`colorsys.rgb_to_hsv` is applied to each centroid after dividing the
channels by 255; only the saturation and value components are used by the
selection chain. -/

/-- Saturation and value of `colorsys.rgb_to_hsv (r/255, g/255, b/255)`:
`v = max`, `s = (max - min) / max` unless `max = min`, in which case
`s = 0` (app.py lines 56–59). -/
def hsvSV (c : RGB) : ℚ × ℚ :=
  let r : ℚ := (c.1 : ℚ) / 255
  let g : ℚ := (c.2.1 : ℚ) / 255
  let b : ℚ := (c.2.2 : ℚ) / 255
  let maxc : ℚ := max r (max g b)
  let minc : ℚ := min r (min g b)
  if minc = maxc then (0, maxc) else ((maxc - minc) / maxc, maxc)

/-- The vibrancy filter of app.py line 65: `s > 0.4 and 0.3 < v < 0.9`. -/
def isVibrant (c : RGB) : Bool :=
  decide (2/5 < (hsvSV c).1 ∧ 3/10 < (hsvSV c).2 ∧ (hsvSV c).2 < 9/10)

/-- The vibrancy score of app.py line 67: `s * v`. -/
def vibrancy (c : RGB) : ℚ := (hsvSV c).1 * (hsvSV c).2

/-- The brightness filter of app.py lines 81–82:
`30 < (r + g + b) / 3 < 230`, i.e. `90 < r + g + b < 690`. -/
def brightOk (c : RGB) : Bool :=
  decide (90 < c.1 + c.2.1 + c.2.2 ∧ c.1 + c.2.1 + c.2.2 < 690)

/-- `np.var([r, g, b])` of app.py line 84: the population variance of the
three channel values. -/
def varQ (c : RGB) : ℚ :=
  let r : ℚ := (c.1 : ℚ)
  let g : ℚ := (c.2.1 : ℚ)
  let b : ℚ := (c.2.2 : ℚ)
  (r ^ 2 + g ^ 2 + b ^ 2) / 3 - ((r + g + b) / 3) ^ 2

/-- Python `<` on the colour tuples appearing in the scored pairs:
lexicographic comparison of the three channels. -/
def rgbLtb (x y : RGB) : Bool :=
  decide (x.1 < y.1) ||
    (decide (x.1 = y.1) &&
      (decide (x.2.1 < y.2.1) ||
        (decide (x.2.1 = y.2.1) && decide (x.2.2 < y.2.2))))

/-- One comparison step of `list.sort(reverse=True)` followed by `[0]`:
of two `(score, rgb)` pairs, the one that is larger in Python tuple
order. -/
def betterPair (p q : ℚ × RGB) : ℚ × RGB :=
  if p.1 < q.1 then q
  else if q.1 < p.1 then p
  else if rgbLtb p.2 q.2 then q else p

/-- `pairs.sort(reverse=True); pairs[0]`: the pair that is maximal in
Python tuple order, `none` on the empty list (app.py lines 71–73 and
87–89). -/
def pickBest : List (ℚ × RGB) → Option (ℚ × RGB)
  | [] => none
  | p :: ps => some (ps.foldl betterPair p)

theorem betterPair_mem (p q : ℚ × RGB) : betterPair p q = p ∨ betterPair p q = q := by
  unfold betterPair
  split
  · exact Or.inr rfl
  · split
    · exact Or.inl rfl
    · split
      · exact Or.inr rfl
      · exact Or.inl rfl

theorem le_betterPair_left (p q : ℚ × RGB) : p.1 ≤ (betterPair p q).1 := by
  unfold betterPair
  split
  · next h => exact le_of_lt h
  · split
    · exact le_refl _
    · split
      · next h1 h2 h3 => exact le_of_not_lt h2
      · exact le_refl _

theorem le_betterPair_right (p q : ℚ × RGB) : q.1 ≤ (betterPair p q).1 := by
  unfold betterPair
  split
  · exact le_refl _
  · split
    · next h => exact le_of_lt h
    · split
      · exact le_refl _
      · next h1 h2 h3 => exact le_of_not_lt h1

theorem foldl_betterPair_mem (ps : List (ℚ × RGB)) :
    ∀ p : ℚ × RGB, ps.foldl betterPair p ∈ p :: ps := by
  induction ps with
  | nil => intro p; exact List.mem_singleton.mpr rfl
  | cons q qs ih =>
    intro p
    have h := ih (betterPair p q)
    rcases betterPair_mem p q with hb | hb
    · rcases List.mem_cons.mp h with h1 | h1
      · rw [List.foldl_cons, h1, hb]; exact List.mem_cons_self _ _
      · exact List.mem_cons_of_mem _ (List.mem_cons_of_mem _ h1)
    · rcases List.mem_cons.mp h with h1 | h1
      · rw [List.foldl_cons, h1, hb]
        exact List.mem_cons_of_mem _ (List.mem_cons_self _ _)
      · exact List.mem_cons_of_mem _ (List.mem_cons_of_mem _ h1)

theorem foldl_betterPair_le (ps : List (ℚ × RGB)) :
    ∀ p : ℚ × RGB, p.1 ≤ (ps.foldl betterPair p).1 ∧
      ∀ q ∈ ps, q.1 ≤ (ps.foldl betterPair p).1 := by
  induction ps with
  | nil =>
    intro p
    exact ⟨le_refl _, by intro q hq; exact absurd hq (List.not_mem_nil q)⟩
  | cons r rs ih =>
    intro p
    obtain ⟨h1, h2⟩ := ih (betterPair p r)
    refine ⟨le_trans (le_betterPair_left p r) h1, ?_⟩
    intro q hq
    rcases List.mem_cons.mp hq with hq | hq
    · rw [hq]; exact le_trans (le_betterPair_right p r) h1
    · exact h2 q hq

theorem pickBest_mem {l : List (ℚ × RGB)} {p : ℚ × RGB}
    (h : pickBest l = some p) : p ∈ l := by
  cases l with
  | nil => exact absurd h (by simp [pickBest])
  | cons q qs =>
    have hp : qs.foldl betterPair q = p := by
      simpa [pickBest] using h
    rw [← hp]
    exact foldl_betterPair_mem qs q

theorem pickBest_le {l : List (ℚ × RGB)} {p : ℚ × RGB}
    (h : pickBest l = some p) : ∀ q ∈ l, q.1 ≤ p.1 := by
  cases l with
  | nil => exact absurd h (by simp [pickBest])
  | cons r rs =>
    have hp : rs.foldl betterPair r = p := by
      simpa [pickBest] using h
    intro q hq
    obtain ⟨h1, h2⟩ := foldl_betterPair_le rs r
    rcases List.mem_cons.mp hq with hq | hq
    · rw [hq, ← hp]; exact h1
    · rw [← hp]; exact h2 q hq

theorem pickBest_eq_none {l : List (ℚ × RGB)} :
    pickBest l = none ↔ l = [] := by
  cases l with
  | nil => simp [pickBest]
  | cons q qs => simp [pickBest]

/-- The centroids surviving the vibrancy filter (app.py lines 62–68). -/
def vibrantSurvivors (cs : List RGB) : List RGB := cs.filter isVibrant

/-- The scored pairs `(s * v, rgb)` built from the vibrancy survivors. -/
def vibPairs (cs : List RGB) : List (ℚ × RGB) :=
  (vibrantSurvivors cs).map (fun c => (vibrancy c, c))

/-- The centroids surviving the brightness filter of the first fallback
(app.py lines 77–85). -/
def brightSurvivors (cs : List RGB) : List RGB := cs.filter brightOk

/-- The scored pairs `(variance, rgb)` built from the brightness
survivors. -/
def brightPairs (cs : List RGB) : List (ℚ × RGB) :=
  (brightSurvivors cs).map (fun c => (varQ c, c))

/-- The selection chain of app.py lines 54–92 applied to the list of
k-means centroids: most vibrant survivor, else most colour-varied
brightness survivor, else the first centroid. -/
def selectAccent (cs : List RGB) : Option RGB :=
  match pickBest (vibPairs cs) with
  | some p => some p.2
  | none =>
    match pickBest (brightPairs cs) with
    | some p => some p.2
    | none => cs.head?

theorem selectAccent_of_vibrant {cs : List RGB} {p : ℚ × RGB}
    (h : pickBest (vibPairs cs) = some p) : selectAccent cs = some p.2 := by
  unfold selectAccent
  rw [h]

theorem selectAccent_of_bright {cs : List RGB} {p : ℚ × RGB}
    (h0 : pickBest (vibPairs cs) = none)
    (h : pickBest (brightPairs cs) = some p) : selectAccent cs = some p.2 := by
  unfold selectAccent
  rw [h0, h]

theorem selectAccent_of_none {cs : List RGB}
    (h0 : pickBest (vibPairs cs) = none)
    (h1 : pickBest (brightPairs cs) = none) : selectAccent cs = cs.head? := by
  unfold selectAccent
  rw [h0, h1]

theorem rgbLtb_self (x : RGB) : rgbLtb x x = false := by
  simp [rgbLtb]

theorem betterPair_self (p : ℚ × RGB) : betterPair p p = p := by
  simp [betterPair, rgbLtb_self]

theorem foldl_betterPair_const (m : ℕ) (p : ℚ × RGB) :
    (List.replicate m p).foldl betterPair p = p := by
  induction m with
  | zero => rfl
  | succ k ih =>
    rw [List.replicate_succ, List.foldl_cons, betterPair_self]
    exact ih

/-- Evaluation: an achromatic centroid has saturation 0. -/
theorem hsvSV_gray (x : ℕ) : hsvSV (x, x, x) = (0, (x : ℚ) / 255) := by
  simp [hsvSV]

theorem isVibrant_gray (x : ℕ) : isVibrant (x, x, x) = false := by
  rw [isVibrant, hsvSV_gray]
  simp only [decide_eq_false_iff_not]
  intro h
  obtain ⟨h1, _⟩ := h
  norm_num at h1

/-- Evaluation: the centroid `(200, 30, 30)` has `s = 17/20` and
`v = 40/51`. -/
theorem hsvSV_accent : hsvSV (200, 30, 30) = (17/20, 40/51) := by
  rw [hsvSV]
  push_cast
  rw [max_self, min_self, max_eq_left (by norm_num), min_eq_right (by norm_num),
    if_neg (by norm_num)]
  norm_num

theorem isVibrant_accent : isVibrant (200, 30, 30) = true := by
  rw [isVibrant, hsvSV_accent]
  simp only [decide_eq_true_eq]
  norm_num

theorem selectAccent_all_filtered {cs : List RGB}
    (h1 : ∀ c ∈ cs, isVibrant c = false)
    (h2 : ∀ c ∈ cs, brightOk c = false) :
    selectAccent cs = cs.head? := by
  apply selectAccent_of_none
  · rw [pickBest_eq_none]
    unfold vibPairs
    rw [List.map_eq_nil_iff]
    unfold vibrantSurvivors
    rw [List.filter_eq_nil_iff]
    intro c hc
    simp [h1 c hc]
  · rw [pickBest_eq_none]
    unfold brightPairs
    rw [List.map_eq_nil_iff]
    unfold brightSurvivors
    rw [List.filter_eq_nil_iff]
    intro c hc
    simp [h2 c hc]

theorem selectAccent_replicate (k : ℕ) (c : RGB) (hk : 0 < k)
    (hv : isVibrant c = true) :
    selectAccent (List.replicate k c) = some c := by
  have hfil : vibrantSurvivors (List.replicate k c) = List.replicate k c := by
    unfold vibrantSurvivors
    apply List.filter_eq_self.mpr
    intro a ha
    rw [List.eq_of_mem_replicate ha, hv]
  have hpairs : vibPairs (List.replicate k c) = List.replicate k (vibrancy c, c) := by
    unfold vibPairs
    rw [hfil, List.map_replicate]
  cases k with
  | zero => exact absurd hk (by norm_num)
  | succ m =>
    have hpick : pickBest (vibPairs (List.replicate (m + 1) c)) =
        some (vibrancy c, c) := by
      rw [hpairs, List.replicate_succ]
      show some ((List.replicate m (vibrancy c, c)).foldl betterPair
        (vibrancy c, c)) = _
      rw [foldl_betterPair_const]
    rw [selectAccent_of_vibrant hpick]

/-- Claim C1: the accent-color selection follows the vibrancy rule
exactly — among the centroids surviving the saturation/value filter the
result maximizes `s * v`; if none survive, the result is a maximum
per-channel-variance centroid among those of mean brightness strictly
between 30 and 230; if still none, the result is the first centroid — and
the chain is total: for every non-empty centroid list a color is
returned. -/
theorem accent_selection_vibrancy_chain (cs : List RGB) (hne : cs ≠ []) :
    ∃ c : RGB, selectAccent cs = some c ∧
      (vibrantSurvivors cs ≠ [] →
        c ∈ vibrantSurvivors cs ∧
          ∀ d ∈ vibrantSurvivors cs, vibrancy d ≤ vibrancy c) ∧
      (vibrantSurvivors cs = [] → brightSurvivors cs ≠ [] →
        c ∈ brightSurvivors cs ∧
          ∀ d ∈ brightSurvivors cs, varQ d ≤ varQ c) ∧
      (vibrantSurvivors cs = [] → brightSurvivors cs = [] →
        cs.head? = some c) := by
  cases hv : pickBest (vibPairs cs) with
  | some p =>
    obtain ⟨c, hc, hcp⟩ := List.mem_map.mp (pickBest_mem hv)
    have hp1 : p.1 = vibrancy c := by rw [← hcp]
    have hp2 : p.2 = c := by rw [← hcp]
    refine ⟨p.2, selectAccent_of_vibrant hv, ?_, ?_, ?_⟩
    · intro _
      refine ⟨hp2 ▸ hc, ?_⟩
      intro d hd
      have hdm : (vibrancy d, d) ∈ vibPairs cs :=
        List.mem_map.mpr ⟨d, hd, rfl⟩
      have := pickBest_le hv (vibrancy d, d) hdm
      rw [hp1] at this
      rw [hp2]
      exact this
    · intro hemp
      have : vibPairs cs = [] := by
        unfold vibPairs
        rw [hemp]
        rfl
      rw [this] at hv
      exact absurd hv (by simp [pickBest])
    · intro hemp _
      have : vibPairs cs = [] := by
        unfold vibPairs
        rw [hemp]
        rfl
      rw [this] at hv
      exact absurd hv (by simp [pickBest])
  | none =>
    have hvnil : vibrantSurvivors cs = [] := by
      have := pickBest_eq_none.mp hv
      unfold vibPairs at this
      exact List.map_eq_nil_iff.mp this
    cases hb : pickBest (brightPairs cs) with
    | some p =>
      obtain ⟨c, hc, hcp⟩ := List.mem_map.mp (pickBest_mem hb)
      have hp1 : p.1 = varQ c := by rw [← hcp]
      have hp2 : p.2 = c := by rw [← hcp]
      refine ⟨p.2, selectAccent_of_bright hv hb, ?_, ?_, ?_⟩
      · intro hne2
        exact absurd hvnil hne2
      · intro _ _
        refine ⟨hp2 ▸ hc, ?_⟩
        intro d hd
        have hdm : (varQ d, d) ∈ brightPairs cs :=
          List.mem_map.mpr ⟨d, hd, rfl⟩
        have := pickBest_le hb (varQ d, d) hdm
        rw [hp1] at this
        rw [hp2]
        exact this
      · intro _ hemp
        have : brightPairs cs = [] := by
          unfold brightPairs
          rw [hemp]
          rfl
        rw [this] at hb
        exact absurd hb (by simp [pickBest])
    | none =>
      have hbnil : brightSurvivors cs = [] := by
        have := pickBest_eq_none.mp hb
        unfold brightPairs at this
        exact List.map_eq_nil_iff.mp this
      cases cs with
      | nil => exact absurd rfl hne
      | cons c0 cs0 =>
        refine ⟨c0, ?_, ?_, ?_, ?_⟩
        · rw [selectAccent_of_none hv hb]; rfl
        · intro hne2; exact absurd hvnil hne2
        · intro _ hne2; exact absurd hbnil hne2
        · intro _ _; rfl

/-- Witness for C1 at the concrete one-centroid list `[(200, 30, 30)]`. -/
theorem accent_selection_vibrancy_chain_witness :
    ∃ c : RGB, selectAccent [(200, 30, 30)] = some c ∧
      (vibrantSurvivors [(200, 30, 30)] ≠ [] →
        c ∈ vibrantSurvivors [(200, 30, 30)] ∧
          ∀ d ∈ vibrantSurvivors [(200, 30, 30)], vibrancy d ≤ vibrancy c) ∧
      (vibrantSurvivors [(200, 30, 30)] = [] →
        brightSurvivors [(200, 30, 30)] ≠ [] →
        c ∈ brightSurvivors [(200, 30, 30)] ∧
          ∀ d ∈ brightSurvivors [(200, 30, 30)], varQ d ≤ varQ c) ∧
      (vibrantSurvivors [(200, 30, 30)] = [] →
        brightSurvivors [(200, 30, 30)] = [] →
        List.head? [(200, 30, 30)] = some c) :=
  accent_selection_vibrancy_chain [(200, 30, 30)] (by decide)

/-! ## Sampling and clustering (app.py lines 36–52)

`sampled_pixels = pixels[np.random.choice(len(pixels), sample_size,
replace=False)]` draws `min 10000 (len pixels)` distinct indices from the
*global, unseeded* NumPy generator; the index list is therefore an input
of the embedding, constrained by `ValidRun`, not a function of the image.
`KMeans(n_clusters=n_colors, random_state=0).fit` is external library
code; it raises `ValueError` iff the sample has fewer elements than
`n_colors`, and otherwise returns `n_colors` centroids, each the mean of
one block of a partition of the sample (duplicate pixel values are
allowed and merely yield duplicate centroids). -/

/-- `pixels[choice]`: the pixel sample selected by an index list. -/
def samplePixels (pixels : List RGB) (idxs : List ℕ) : List RGB :=
  idxs.map (fun i => pixels.getD i (0, 0, 0))

/-- `kmeans.cluster_centers_.astype(int)` for one cluster: the per-channel
mean of the cluster members, truncated to an integer. -/
def centroidInt (q : List RGB) : RGB :=
  ((q.map (fun c => c.1)).sum / q.length,
   (q.map (fun c => c.2.1)).sum / q.length,
   (q.map (fun c => c.2.2)).sum / q.length)

/-- One run of app.py lines 44–52: the RNG drew the index list `idxs`
(distinct, in range, of the sampled size) and the seeded `KMeans` call
returned the centroids of the `n` blocks of `parts`, a partition of the
sample into non-empty clusters. -/
def ValidRun (n : ℕ) (pixels : List RGB) (idxs : List ℕ)
    (parts : List (List RGB)) : Prop :=
  idxs.Nodup ∧
  idxs.length = min 10000 pixels.length ∧
  (∀ i ∈ idxs, i < pixels.length) ∧
  parts.length = n ∧
  (∀ q ∈ parts, q ≠ []) ∧
  (samplePixels pixels idxs).Perm parts.flatten

instance decValidRun (n : ℕ) (pixels : List RGB) (idxs : List ℕ)
    (parts : List (List RGB)) : Decidable (ValidRun n pixels idxs parts) := by
  unfold ValidRun
  infer_instance

/-- `get_accent_color` (app.py lines 36–92) with the clustering output
given relationally: `none` is the `ValueError` KMeans raises when the
sample is smaller than the cluster count. -/
def get_accent_color (n : ℕ) (pixels : List RGB)
    (parts : List (List RGB)) : Option RGB :=
  if min 10000 pixels.length < n then none
  else selectAccent (parts.map centroidInt)

/-- `get_accent_color` with the seeded KMeans call viewed as an arbitrary
fixed function `K` from the sampled pixel list to the centroid list
(`random_state=0` makes the library call a function of its input). -/
def get_accent_colorK (K : List RGB → List RGB) (n : ℕ) (pixels : List RGB)
    (idxs : List ℕ) : Option RGB :=
  if min 10000 pixels.length < n then none
  else selectAccent (K (samplePixels pixels idxs))

theorem selectAccent_ne_none {cs : List RGB} (hne : cs ≠ []) :
    selectAccent cs ≠ none := by
  cases hv : pickBest (vibPairs cs) with
  | some p => rw [selectAccent_of_vibrant hv]; simp
  | none =>
    cases hb : pickBest (brightPairs cs) with
    | some p => rw [selectAccent_of_bright hv hb]; simp
    | none =>
      rw [selectAccent_of_none hv hb]
      cases cs with
      | nil => exact absurd rfl hne
      | cons c0 cs0 => simp

theorem centroidInt_const {q : List RGB} {C : RGB}
    (hall : ∀ x ∈ q, x = C) (hne : q ≠ []) : centroidInt q = C := by
  have hlen : 0 < q.length := List.length_pos.mpr hne
  have h1 : (q.map (fun c => c.1)).sum = q.length * C.1 := by
    have hrep : q.map (fun c => c.1) = List.replicate (q.map (fun c => c.1)).length C.1 := by
      apply List.eq_replicate_of_mem
      intro b hb
      obtain ⟨x, hx, hbx⟩ := List.mem_map.mp hb
      rw [← hbx, hall x hx]
    rw [hrep, List.sum_replicate, smul_eq_mul, List.length_map]
  have h2 : (q.map (fun c => c.2.1)).sum = q.length * C.2.1 := by
    have hrep : q.map (fun c => c.2.1) = List.replicate (q.map (fun c => c.2.1)).length C.2.1 := by
      apply List.eq_replicate_of_mem
      intro b hb
      obtain ⟨x, hx, hbx⟩ := List.mem_map.mp hb
      rw [← hbx, hall x hx]
    rw [hrep, List.sum_replicate, smul_eq_mul, List.length_map]
  have h3 : (q.map (fun c => c.2.2)).sum = q.length * C.2.2 := by
    have hrep : q.map (fun c => c.2.2) = List.replicate (q.map (fun c => c.2.2)).length C.2.2 := by
      apply List.eq_replicate_of_mem
      intro b hb
      obtain ⟨x, hx, hbx⟩ := List.mem_map.mp hb
      rw [← hbx, hall x hx]
    rw [hrep, List.sum_replicate, smul_eq_mul, List.length_map]
  unfold centroidInt
  rw [h1, h2, h3, Nat.mul_div_cancel_left _ hlen, Nat.mul_div_cancel_left _ hlen,
    Nat.mul_div_cancel_left _ hlen]

theorem selectAccent_const {cs : List RGB} {C : RGB} (hne : cs ≠ [])
    (hall : ∀ c ∈ cs, c = C) : selectAccent cs = some C := by
  cases hv : pickBest (vibPairs cs) with
  | some p =>
    rw [selectAccent_of_vibrant hv]
    obtain ⟨c, hc, hcp⟩ := List.mem_map.mp (pickBest_mem hv)
    have hcs : c ∈ cs := List.mem_of_mem_filter hc
    have hp2 : p.2 = c := by rw [← hcp]
    rw [hp2, hall c hcs]
  | none =>
    cases hb : pickBest (brightPairs cs) with
    | some p =>
      rw [selectAccent_of_bright hv hb]
      obtain ⟨c, hc, hcp⟩ := List.mem_map.mp (pickBest_mem hb)
      have hcs : c ∈ cs := List.mem_of_mem_filter hc
      have hp2 : p.2 = c := by rw [← hcp]
      rw [hp2, hall c hcs]
    | none =>
      rw [selectAccent_of_none hv hb]
      cases cs with
      | nil => exact absurd rfl hne
      | cons c0 cs0 =>
        rw [List.head?_cons, hall c0 (List.mem_cons_self c0 cs0)]

/-- Claim C5 (amended): for a solid-color image whose sampled pixel count
is at least the cluster count (so KMeans can run at all), the extractor
returns exactly the solid color. -/
theorem get_accent_solid (C : RGB) (n : ℕ) (pixels : List RGB)
    (idxs : List ℕ) (parts : List (List RGB))
    (hrun : ValidRun n pixels idxs parts) (hn : 0 < n)
    (hfit : n ≤ min 10000 pixels.length)
    (hsolid : ∀ p ∈ pixels, p = C) :
    get_accent_color n pixels parts = some C := by
  obtain ⟨hnd, hlen, hidx, hplen, hpne, hperm⟩ := hrun
  unfold get_accent_color
  rw [if_neg (not_lt.mpr hfit)]
  apply selectAccent_const
  · intro hmapnil
    have hpn : parts = [] := List.map_eq_nil_iff.mp hmapnil
    rw [hpn] at hplen
    simp at hplen
    omega
  · intro c hc
    obtain ⟨q, hq, hcq⟩ := List.mem_map.mp hc
    have hqC : ∀ x ∈ q, x = C := by
      intro x hx
      have hxj : x ∈ parts.flatten := List.mem_flatten.mpr ⟨q, hq, hx⟩
      have hxs : x ∈ samplePixels pixels idxs := hperm.mem_iff.mpr hxj
      obtain ⟨i, hi, hix⟩ := List.mem_map.mp hxs
      have hilt : i < pixels.length := hidx i hi
      have hget : pixels.getD i (0, 0, 0) = pixels.get ⟨i, hilt⟩ := by
        rw [List.getD_eq_getElem?_getD, List.getElem?_eq_getElem hilt]
        rfl
      have hmem : pixels.get ⟨i, hilt⟩ ∈ pixels := List.get_mem pixels i hilt
      rw [← hix, hget]
      exact hsolid _ hmem
    rw [← hcq]
    exact centroidInt_const hqC (hpne q hq)

/-- A solid-color sample of 12 pixels, its index draw and a valid
10-cluster partition of it. -/
def solidPixels : List RGB := List.replicate 12 (200, 30, 30)

def solidIdxs : List ℕ := List.range 12

def solidParts : List (List RGB) :=
  [[(200, 30, 30), (200, 30, 30), (200, 30, 30)]] ++
    List.replicate 9 [(200, 30, 30)]

/-- Witness for C5 (amended) at a solid 12-pixel image. -/
theorem get_accent_solid_witness :
    get_accent_color 10 solidPixels solidParts = some (200, 30, 30) :=
  get_accent_solid (200, 30, 30) 10 solidPixels solidIdxs solidParts
    (by decide) (by decide) (by decide) (by decide)

/-- Counterexample to C5 as stated: a 1×1 solid-color image has a single
sampled pixel, so with the default cluster count 10 the KMeans call
raises `ValueError` (n_samples < n_clusters) and the extractor errors
instead of returning the solid color. -/
theorem get_accent_solid_small_counterexample :
    get_accent_color 10 [(5, 5, 5)] [] = none := by decide

/-- Claim C4 (amended): with the seeded KMeans call a fixed function of
its input, the extractor is deterministic *given the pixel sample*: two
runs whose RNG draws select the same sample yield the same accent color.
(The sample itself is drawn from the unseeded global NumPy RNG, so it is
not a function of the image alone.) -/
theorem accent_deterministic_given_sample (K : List RGB → List RGB)
    (n : ℕ) (pixels : List RGB) (idxs1 idxs2 : List ℕ)
    (h : samplePixels pixels idxs1 = samplePixels pixels idxs2) :
    get_accent_colorK K n pixels idxs1 = get_accent_colorK K n pixels idxs2 := by
  unfold get_accent_colorK
  rw [h]

/-- Witness for C4 (amended): two different index draws selecting the
same sample give the same result. -/
theorem accent_deterministic_given_sample_witness :
    get_accent_colorK (fun l => l) 1 [(0, 0, 0), (0, 0, 0)] [0, 1] =
      get_accent_colorK (fun l => l) 1 [(0, 0, 0), (0, 0, 0)] [1, 0] :=
  accent_deterministic_given_sample (fun l => l) 1 [(0, 0, 0), (0, 0, 0)]
    [0, 1] [1, 0] (by decide)

/-- An 11-pixel image (10 black, 1 dark gray) and two runs of the
extractor on it: different RNG index draws and correspondingly different
cluster orders. -/
def pxs11 : List RGB := List.replicate 10 (0, 0, 0) ++ [(10, 10, 10)]

def idxA : List ℕ := List.range 11

def idxB : List ℕ := (List.range 11).reverse

def partsA : List (List RGB) :=
  [[(10, 10, 10)], [(0, 0, 0), (0, 0, 0)]] ++ List.replicate 8 [(0, 0, 0)]

def partsB : List (List RGB) :=
  [[(0, 0, 0)], [(0, 0, 0), (0, 0, 0)]] ++ List.replicate 7 [(0, 0, 0)] ++
    [[(10, 10, 10)]]

/-- Counterexample to C4 as stated: on one and the same pixel content two
valid runs (different unseeded RNG draws, hence different k-means cluster
orders) return different accent colors. -/
theorem accent_determinism_counterexample :
    ValidRun 10 pxs11 idxA partsA ∧ ValidRun 10 pxs11 idxB partsB ∧
      get_accent_color 10 pxs11 partsA ≠ get_accent_color 10 pxs11 partsB := by
  have hA : partsA.map centroidInt = (10, 10, 10) :: List.replicate 9 (0, 0, 0) := by
    decide
  have hB : partsB.map centroidInt =
      List.replicate 9 (0, 0, 0) ++ [(10, 10, 10)] := by
    decide
  have hgray : ∀ c : RGB, c = (10, 10, 10) ∨ c = (0, 0, 0) →
      isVibrant c = false ∧ brightOk c = false := by
    intro c hc
    rcases hc with h | h
    · rw [h]; exact ⟨isVibrant_gray 10, by decide⟩
    · rw [h]; exact ⟨isVibrant_gray 0, by decide⟩
  have h1 : get_accent_color 10 pxs11 partsA = some (10, 10, 10) := by
    unfold get_accent_color
    rw [if_neg (by decide)]
    rw [selectAccent_all_filtered, hA]
    · rfl
    · intro c hc
      rw [hA] at hc
      rcases List.mem_cons.mp hc with h | h
      · exact (hgray c (Or.inl h)).1
      · exact (hgray c (Or.inr (List.eq_of_mem_replicate h))).1
    · intro c hc
      rw [hA] at hc
      rcases List.mem_cons.mp hc with h | h
      · exact (hgray c (Or.inl h)).2
      · exact (hgray c (Or.inr (List.eq_of_mem_replicate h))).2
  have h2 : get_accent_color 10 pxs11 partsB = some (0, 0, 0) := by
    unfold get_accent_color
    rw [if_neg (by decide)]
    rw [selectAccent_all_filtered, hB]
    · rfl
    · intro c hc
      rw [hB] at hc
      rcases List.mem_append.mp hc with h | h
      · exact (hgray c (Or.inr (List.eq_of_mem_replicate h))).1
      · exact (hgray c (Or.inl (List.mem_singleton.mp h))).1
    · intro c hc
      rw [hB] at hc
      rcases List.mem_append.mp hc with h | h
      · exact (hgray c (Or.inr (List.eq_of_mem_replicate h))).2
      · exact (hgray c (Or.inl (List.mem_singleton.mp h))).2
  refine ⟨by decide, by decide, ?_⟩
  rw [h1, h2]
  decide

/-- Claim C10 (amended): the extractor errors iff the sampled pixel
count `min 10000 (pixel count)` is smaller than the cluster count; the
number of *distinct* pixel values is irrelevant. -/
theorem get_accent_error_iff (n : ℕ) (pixels : List RGB) (idxs : List ℕ)
    (parts : List (List RGB)) (hrun : ValidRun n pixels idxs parts)
    (hn : 0 < n) :
    (get_accent_color n pixels parts = none ↔ min 10000 pixels.length < n) := by
  obtain ⟨hnd, hlen, hidx, hplen, hpne, hperm⟩ := hrun
  unfold get_accent_color
  by_cases h : min 10000 pixels.length < n
  · rw [if_pos h]
    simp [h]
  · rw [if_neg h]
    constructor
    · intro hnone
      have hne : parts.map centroidInt ≠ [] := by
        intro hmapnil
        have hpn : parts = [] := List.map_eq_nil_iff.mp hmapnil
        rw [hpn] at hplen
        simp at hplen
        omega
      exact absurd hnone (selectAccent_ne_none hne)
    · intro hlt
      exact absurd hlt h

/-- Witness for C10 (amended) at the solid 12-pixel run. -/
theorem get_accent_error_iff_witness :
    (get_accent_color 10 solidPixels solidParts = none ↔
      min 10000 solidPixels.length < 10) :=
  get_accent_error_iff 10 solidPixels solidIdxs solidParts (by decide)
    (by decide)

/-- Counterexample to C10 as stated: an image with a single distinct pixel
value (fewer than the 10 requested clusters) on which a valid clustering
run exists and the extractor succeeds instead of failing. -/
theorem insufficient_data_counterexample :
    ValidRun 10 solidPixels solidIdxs solidParts ∧
      solidPixels.dedup.length < 10 ∧
      get_accent_color 10 solidPixels solidParts = some (200, 30, 30) := by
  refine ⟨by decide, by decide, ?_⟩
  unfold get_accent_color
  rw [if_neg (by decide)]
  have hcent : solidParts.map centroidInt = List.replicate 10 (200, 30, 30) := by
    decide
  rw [hcent]
  exact selectAccent_replicate 10 (200, 30, 30) (by decide) isVibrant_accent

/-! ## Canvas normalization (app.py lines 10–34)

`resize_image` computes `scale = max(target_size / width,
target_size / height)` (a `ZeroDivisionError` — the `InvalidInput`
failure — when a dimension is zero), truncates the scaled dimensions with
`int(...)`, builds a `target_size × target_size` canvas and pastes the
resized image at the centering offsets (Python `//` is floor
division). -/

/-- The result of `resize_image`: the canvas dimensions, the dimensions
of the resized source, and the centering paste offsets. -/
structure ResizeResult where
  canvasW : ℕ
  canvasH : ℕ
  newW : ℤ
  newH : ℤ
  pasteX : ℤ
  pasteY : ℤ
deriving DecidableEq

/-- `scale = max(target_size / width, target_size / height)`
(app.py line 15). -/
def scaleFactor (w h target : ℕ) : ℚ :=
  max ((target : ℚ) / w) ((target : ℚ) / h)

/-- `resize_image(image, target_size)` (app.py lines 10–34); `none` is
the `ZeroDivisionError` raised on a zero-width or zero-height source. -/
def resize_image (w h target : ℕ) : Option ResizeResult :=
  if w = 0 ∨ h = 0 then none
  else
    some
      { canvasW := target
        canvasH := target
        newW := ⌊(w : ℚ) * scaleFactor w h target⌋
        newH := ⌊(h : ℚ) * scaleFactor w h target⌋
        pasteX := Int.fdiv ((target : ℤ) - ⌊(w : ℚ) * scaleFactor w h target⌋) 2
        pasteY := Int.fdiv ((target : ℤ) - ⌊(h : ℚ) * scaleFactor w h target⌋) 2 }

theorem resize_image_pos {w h target : ℕ} (hw : 0 < w) (hh : 0 < h) :
    resize_image w h target =
      some
        { canvasW := target
          canvasH := target
          newW := ⌊(w : ℚ) * scaleFactor w h target⌋
          newH := ⌊(h : ℚ) * scaleFactor w h target⌋
          pasteX := Int.fdiv ((target : ℤ) - ⌊(w : ℚ) * scaleFactor w h target⌋) 2
          pasteY := Int.fdiv ((target : ℤ) - ⌊(h : ℚ) * scaleFactor w h target⌋) 2 } := by
  unfold resize_image
  rw [if_neg]
  push_neg
  exact ⟨Nat.pos_iff_ne_zero.mp hw, Nat.pos_iff_ne_zero.mp hh⟩

/-- The smaller source dimension is scaled exactly onto the target:
`min ⌊w * scale⌋ ⌊h * scale⌋ = target` for positive dimensions. -/
theorem scaleFactor_min_dim (w h target : ℕ) (hw : 0 < w) (hh : 0 < h) :
    min ⌊(w : ℚ) * scaleFactor w h target⌋ ⌊(h : ℚ) * scaleFactor w h target⌋ =
      (target : ℤ) := by
  have hwq : (0 : ℚ) < (w : ℚ) := by exact_mod_cast hw
  have hhq : (0 : ℚ) < (h : ℚ) := by exact_mod_cast hh
  have htq : (0 : ℚ) ≤ (target : ℚ) := by positivity
  rcases le_total w h with hwh | hwh
  · have hwhq : (w : ℚ) ≤ (h : ℚ) := by exact_mod_cast hwh
    have hmax : scaleFactor w h target = (target : ℚ) / w := by
      unfold scaleFactor
      exact max_eq_left (div_le_div_of_nonneg_left htq hwq hwhq)
    have hW : ⌊(w : ℚ) * scaleFactor w h target⌋ = (target : ℤ) := by
      rw [hmax, ← mul_div_assoc]
      rw [mul_div_cancel_left₀ _ (ne_of_gt hwq)]
      exact Int.floor_natCast target
    have hH : (target : ℤ) ≤ ⌊(h : ℚ) * scaleFactor w h target⌋ := by
      rw [hmax, Int.le_floor]
      push_cast
      calc (target : ℚ) = 1 * target := (one_mul _).symm
        _ ≤ ((h : ℚ) / w) * target := by
            apply mul_le_mul_of_nonneg_right _ htq
            rw [le_div_iff₀ hwq, one_mul]
            exact hwhq
        _ = (h : ℚ) * (target / w) := by ring
    rw [hW]
    exact min_eq_left hH
  · have hwhq : (h : ℚ) ≤ (w : ℚ) := by exact_mod_cast hwh
    have hmax : scaleFactor w h target = (target : ℚ) / h := by
      unfold scaleFactor
      exact max_eq_right (div_le_div_of_nonneg_left htq hhq hwhq)
    have hH : ⌊(h : ℚ) * scaleFactor w h target⌋ = (target : ℤ) := by
      rw [hmax, ← mul_div_assoc]
      rw [mul_div_cancel_left₀ _ (ne_of_gt hhq)]
      exact Int.floor_natCast target
    have hW : (target : ℤ) ≤ ⌊(w : ℚ) * scaleFactor w h target⌋ := by
      rw [hmax, Int.le_floor]
      push_cast
      calc (target : ℚ) = 1 * target := (one_mul _).symm
        _ ≤ ((w : ℚ) / h) * target := by
            apply mul_le_mul_of_nonneg_right _ htq
            rw [le_div_iff₀ hhq, one_mul]
            exact hwhq
        _ = (w : ℚ) * (target / h) := by ring
    rw [hH]
    exact min_eq_right hW

/-- Claim C2: for every source with positive width and height the Canvas
Normalizer returns a canvas of exactly `target × target`; both dimensions
are scaled by the single uniform factor `scaleFactor`, the smaller source
dimension reaches exactly `target`, and each scaled dimension is within
one pixel below its exact proportional value (so the aspect ratio is
preserved within ±1 pixel and no anisotropic stretching occurs). -/
theorem resize_image_canvas_and_aspect (w h target : ℕ)
    (hw : 0 < w) (hh : 0 < h) :
    ∃ r : ResizeResult, resize_image w h target = some r ∧
      r.canvasW = target ∧ r.canvasH = target ∧
      min r.newW r.newH = (target : ℤ) ∧
      ((w : ℚ) * scaleFactor w h target - 1 < (r.newW : ℚ) ∧
        (r.newW : ℚ) ≤ (w : ℚ) * scaleFactor w h target) ∧
      ((h : ℚ) * scaleFactor w h target - 1 < (r.newH : ℚ) ∧
        (r.newH : ℚ) ≤ (h : ℚ) * scaleFactor w h target) := by
  refine ⟨_, resize_image_pos hw hh, rfl, rfl, scaleFactor_min_dim w h target hw hh, ?_, ?_⟩
  · constructor
    · exact_mod_cast Int.sub_one_lt_floor ((w : ℚ) * scaleFactor w h target)
    · exact_mod_cast Int.floor_le ((w : ℚ) * scaleFactor w h target)
  · constructor
    · exact_mod_cast Int.sub_one_lt_floor ((h : ℚ) * scaleFactor w h target)
    · exact_mod_cast Int.floor_le ((h : ℚ) * scaleFactor w h target)

/-- Witness for C2 at a 1000 × 600 source and the default 3000 target. -/
theorem resize_image_canvas_and_aspect_witness :
    ∃ r : ResizeResult, resize_image 1000 600 3000 = some r ∧
      r.canvasW = 3000 ∧ r.canvasH = 3000 ∧
      min r.newW r.newH = (3000 : ℤ) ∧
      (((1000 : ℕ) : ℚ) * scaleFactor 1000 600 3000 - 1 < (r.newW : ℚ) ∧
        (r.newW : ℚ) ≤ ((1000 : ℕ) : ℚ) * scaleFactor 1000 600 3000) ∧
      (((600 : ℕ) : ℚ) * scaleFactor 1000 600 3000 - 1 < (r.newH : ℚ) ∧
        (r.newH : ℚ) ≤ ((600 : ℕ) : ℚ) * scaleFactor 1000 600 3000) :=
  resize_image_canvas_and_aspect 1000 600 3000 (by decide) (by decide)

/-- Claim C9: the Canvas Normalizer fails — the `ZeroDivisionError` from
`target_size / width` or `target_size / height`, the spec's
`InvalidInput` — exactly when the source has zero width or zero height;
for all other sources it is total. -/
theorem resize_image_error_iff (w h target : ℕ) :
    resize_image w h target = none ↔ (w = 0 ∨ h = 0) := by
  unfold resize_image
  by_cases hz : w = 0 ∨ h = 0
  · rw [if_pos hz]
    simp [hz]
  · rw [if_neg hz]
    simp [hz]

/-! ## Procedural logo rendering (app.py lines 136–221)

The `ImportError` branch of `svg_to_png` draws the logo without any
external rasterizer: a transparent RGBA canvas of the requested size, the
outer polygon filled with `(*color, 255)`, then the two interior cutout
polygons overdrawn with the fully transparent pixel `(0, 0, 0, 0)`.
Every control coordinate is a reference coordinate (design size 300×300)
multiplied by `scale_x = width / 300` resp. `scale_y = height / 300`.
PIL's scanline polygon fill is modelled by even–odd ray-crossing
membership of the pixel coordinate. -/

/-- A raster image: dimensions plus a pixel map. -/
structure Raster where
  w : ℕ
  h : ℕ
  pix : ℕ → ℕ → RGBA

/-- `(c * scale_x, c * scale_y)` with `scale_x = width / 300`,
`scale_y = height / 300` (app.py lines 145–146). -/
def scalePt (w h : ℕ) (p : ℚ × ℚ) : ℚ × ℚ :=
  (p.1 * ((w : ℚ) / 300), p.2 * ((h : ℚ) / 300))

/-- The outer shape control points (app.py lines 149–190), at the
300×300 reference size. -/
def refOuter : List (ℚ × ℚ) :=
  [(59.084, 13.5652), (239.084, 13.5652), (239.084, 47.258),
   (252.67, 47.258), (252.67, 60.8232), (286.414, 60.8232),
   (286.414, 74.3884), (286.414, 108.081), (286.414, 121.646),
   (252.67, 121.646), (239.084, 121.646), (239.084, 135.212),
   (239.084, 164.788), (239.084, 178.354), (252.67, 178.354),
   (286.414, 178.354), (286.414, 191.919), (286.414, 225.612),
   (286.414, 239.177), (253.35, 239.177), (243.743, 243.15),
   (239.084, 253.421), (239.084, 286.435), (225.498, 300),
   (132.67, 300), (119.084, 286.435), (119.084, 252.742),
   (105.498, 239.177), (13.5859, 239.177), (0, 225.612),
   (0, 74.3884), (13.5859, 60.8232), (45.498, 60.8232),
   (59.084, 47.258), (59.084, 13.5652)]

/-- The first interior cutout (app.py lines 193–204). -/
def refInner1 : List (ℚ × ℚ) :=
  [(180, 192.834), (180, 225.612), (193.586, 239.177),
   (227.069, 239.177), (235.565, 235.663), (239.084, 227.181),
   (239.084, 192.834), (225.498, 179.268), (193.586, 179.268),
   (180, 192.834)]

/-- The second interior cutout (app.py lines 206–216). -/
def refInner2 : List (ℚ × ℚ) :=
  [(119.084, 135.212), (119.084, 164.788), (132.67, 178.354),
   (164.582, 178.354), (178.168, 164.788), (178.168, 135.212),
   (164.582, 121.646), (132.67, 121.646), (119.084, 135.212)]

/-- `outer_shape` of app.py lines 149–190 at output size `w × h`. -/
def outer_shape (w h : ℕ) : List (ℚ × ℚ) := refOuter.map (scalePt w h)

/-- `inner_shape1` of app.py lines 193–204 at output size `w × h`. -/
def inner_shape1 (w h : ℕ) : List (ℚ × ℚ) := refInner1.map (scalePt w h)

/-- `inner_shape2` of app.py lines 206–216 at output size `w × h`. -/
def inner_shape2 (w h : ℕ) : List (ℚ × ℚ) := refInner2.map (scalePt w h)

/-- The edges of a closed polygon given as a point list whose last point
repeats the first (as all three point lists of the source do). -/
def polyEdges (pts : List (ℚ × ℚ)) : List ((ℚ × ℚ) × (ℚ × ℚ)) :=
  pts.zip pts.tail

/-- Whether the horizontal ray from `p` towards positive x crosses the
edge `e` (half-open in y, so shared vertices are counted once). -/
def crossesRay (p : ℚ × ℚ) (e : (ℚ × ℚ) × (ℚ × ℚ)) : Bool :=
  decide (((e.1.2 ≤ p.2 ∧ p.2 < e.2.2) ∨ (e.2.2 ≤ p.2 ∧ p.2 < e.1.2)) ∧
    p.1 < e.1.1 + (p.2 - e.1.2) * (e.2.1 - e.1.1) / (e.2.2 - e.1.2))

/-- Even–odd polygon membership: an odd number of edge crossings. -/
def inPoly (pts : List (ℚ × ℚ)) (p : ℚ × ℚ) : Bool :=
  ((polyEdges pts).countP (crossesRay p)) % 2 == 1

/-- The procedural fallback branch of `svg_to_png` (app.py lines
136–221): a transparent canvas of the requested size, the outer polygon
painted `(*color, 255)`, then the two cutout polygons overdrawn with the
fully transparent pixel.  Later draw calls win, exactly as in the
source's drawing order. -/
def svg_to_png_fallback (c : RGB) (w h : ℕ) : Raster where
  w := w
  h := h
  pix := fun x y =>
    if inPoly (inner_shape2 w h) ((x : ℚ), (y : ℚ)) then (0, 0, 0, 0)
    else if inPoly (inner_shape1 w h) ((x : ℚ), (y : ℚ)) then (0, 0, 0, 0)
    else if inPoly (outer_shape w h) ((x : ℚ), (y : ℚ)) then
      (c.1, c.2.1, c.2.2, 255)
    else (0, 0, 0, 0)

/-- Claim C3: for every color and positive output size the procedural
backend totally produces a raster of exactly the requested size, whose
control polygons are the 300×300 reference coordinates scaled by
`size / 300`; every pixel inside a cutout polygon has alpha 0, and every
filled outer-shape pixel outside the cutouts equals the color at full
opacity (alpha 255). -/
theorem svg_fallback_geometry (c : RGB) (w h : ℕ) (hw : 0 < w) (hh : 0 < h) :
    (svg_to_png_fallback c w h).w = w ∧ (svg_to_png_fallback c w h).h = h ∧
    outer_shape w h =
      refOuter.map (fun p => (p.1 * ((w : ℚ) / 300), p.2 * ((h : ℚ) / 300))) ∧
    inner_shape1 w h =
      refInner1.map (fun p => (p.1 * ((w : ℚ) / 300), p.2 * ((h : ℚ) / 300))) ∧
    inner_shape2 w h =
      refInner2.map (fun p => (p.1 * ((w : ℚ) / 300), p.2 * ((h : ℚ) / 300))) ∧
    (∀ x y : ℕ,
      (inPoly (inner_shape1 w h) ((x : ℚ), (y : ℚ)) = true ∨
        inPoly (inner_shape2 w h) ((x : ℚ), (y : ℚ)) = true) →
      alphaOf ((svg_to_png_fallback c w h).pix x y) = 0) ∧
    (∀ x y : ℕ,
      inPoly (outer_shape w h) ((x : ℚ), (y : ℚ)) = true →
      inPoly (inner_shape1 w h) ((x : ℚ), (y : ℚ)) = false →
      inPoly (inner_shape2 w h) ((x : ℚ), (y : ℚ)) = false →
      (svg_to_png_fallback c w h).pix x y = (c.1, c.2.1, c.2.2, 255)) := by
  refine ⟨rfl, rfl, rfl, rfl, rfl, ?_, ?_⟩
  · intro x y hmem
    show alphaOf (if inPoly (inner_shape2 w h) ((x : ℚ), (y : ℚ)) then (0, 0, 0, 0)
      else if inPoly (inner_shape1 w h) ((x : ℚ), (y : ℚ)) then (0, 0, 0, 0)
      else if inPoly (outer_shape w h) ((x : ℚ), (y : ℚ)) then
        (c.1, c.2.1, c.2.2, 255)
      else (0, 0, 0, 0)) = 0
    by_cases h2 : inPoly (inner_shape2 w h) ((x : ℚ), (y : ℚ)) = true
    · rw [if_pos h2]; rfl
    · rcases hmem with h1 | h1
      · rw [if_neg h2, if_pos h1]; rfl
      · exact absurd h1 h2
  · intro x y ho h1 h2
    show (if inPoly (inner_shape2 w h) ((x : ℚ), (y : ℚ)) then (0, 0, 0, 0)
      else if inPoly (inner_shape1 w h) ((x : ℚ), (y : ℚ)) then (0, 0, 0, 0)
      else if inPoly (outer_shape w h) ((x : ℚ), (y : ℚ)) then
        (c.1, c.2.1, c.2.2, 255)
      else (0, 0, 0, 0)) = (c.1, c.2.1, c.2.2, 255)
    rw [if_neg (by simp [h2]), if_neg (by simp [h1]), if_pos ho]

/-- Witness for C3 at color `(1, 2, 3)` and the reference size 300×300. -/
theorem svg_fallback_geometry_witness :
    (svg_to_png_fallback (1, 2, 3) 300 300).w = 300 ∧
    (svg_to_png_fallback (1, 2, 3) 300 300).h = 300 ∧
    outer_shape 300 300 =
      refOuter.map (fun p => (p.1 * ((300 : ℚ) / 300), p.2 * ((300 : ℚ) / 300))) ∧
    inner_shape1 300 300 =
      refInner1.map (fun p => (p.1 * ((300 : ℚ) / 300), p.2 * ((300 : ℚ) / 300))) ∧
    inner_shape2 300 300 =
      refInner2.map (fun p => (p.1 * ((300 : ℚ) / 300), p.2 * ((300 : ℚ) / 300))) ∧
    (∀ x y : ℕ,
      (inPoly (inner_shape1 300 300) ((x : ℚ), (y : ℚ)) = true ∨
        inPoly (inner_shape2 300 300) ((x : ℚ), (y : ℚ)) = true) →
      alphaOf ((svg_to_png_fallback (1, 2, 3) 300 300).pix x y) = 0) ∧
    (∀ x y : ℕ,
      inPoly (outer_shape 300 300) ((x : ℚ), (y : ℚ)) = true →
      inPoly (inner_shape1 300 300) ((x : ℚ), (y : ℚ)) = false →
      inPoly (inner_shape2 300 300) ((x : ℚ), (y : ℚ)) = false →
      (svg_to_png_fallback (1, 2, 3) 300 300).pix x y = (1, 2, 3, 255)) :=
  svg_fallback_geometry (1, 2, 3) 300 300 (by decide) (by decide)

/-! ## Compositing (app.py lines 230–245)

`add_logo_to_image` converts the canvas to RGBA, computes
`position = (image.width - logo.width - spacing,
image.height - logo.height - spacing)` and calls
`result.paste(logo, position, logo)`: the logo's own alpha band is the
blend mask, the paste is clipped to the canvas (negative positions drop
the off-canvas part of the logo), and each covered canvas pixel is
blended with PIL's fixed-point formula
`MULDIV255(dst, 255 - mask) + MULDIV255(src, mask)`. -/

/-- PIL's `MULDIV255` fixed-point rounding multiply:
`t = a * b + 128; ((t >> 8) + t) >> 8`. -/
def muldiv255 (a b : ℕ) : ℕ := ((a * b + 128) / 256 + (a * b + 128)) / 256

/-- One channel of PIL's masked paste blend. -/
def blendChannel (d s a : ℕ) : ℕ := muldiv255 d (255 - a) + muldiv255 s a

/-- An RGBA destination pixel blended with an RGBA source pixel using the
source's alpha as the mask, as `Image.paste(logo, pos, logo)` does. -/
def blendPix (d s : RGBA) : RGBA :=
  (blendChannel d.1 s.1 (alphaOf s),
   blendChannel d.2.1 s.2.1 (alphaOf s),
   blendChannel d.2.2.1 s.2.2.1 (alphaOf s),
   blendChannel d.2.2.2 s.2.2.2 (alphaOf s))

/-- `position` of app.py line 237:
`(image.width - logo.width - spacing, image.height - logo.height -
spacing)` over the integers (Python subtraction does not truncate). -/
def pastePos (iw ih lw lh s : ℕ) : ℤ × ℤ :=
  ((iw : ℤ) - lw - s, (ih : ℤ) - lh - s)

/-- The canvas pixels covered by the (clipped) pasted logo rectangle. -/
abbrev overlapRect (image logo : Raster) (s x y : ℕ) : Prop :=
  (pastePos image.w image.h logo.w logo.h s).1 ≤ (x : ℤ) ∧
  (x : ℤ) < (pastePos image.w image.h logo.w logo.h s).1 + logo.w ∧
  (pastePos image.w image.h logo.w logo.h s).2 ≤ (y : ℤ) ∧
  (y : ℤ) < (pastePos image.w image.h logo.w logo.h s).2 + logo.h

/-- The logo pixel that lands on canvas pixel `(x, y)`. -/
def logoSrcPix (image logo : Raster) (s x y : ℕ) : RGBA :=
  logo.pix (((x : ℤ) - (pastePos image.w image.h logo.w logo.h s).1).toNat)
    (((y : ℤ) - (pastePos image.w image.h logo.w logo.h s).2).toNat)

/-- `add_logo_to_image(image, logo, spacing)` (app.py lines 230–245). -/
def add_logo_to_image (image logo : Raster) (s : ℕ) : Raster where
  w := image.w
  h := image.h
  pix := fun x y =>
    if overlapRect image logo s x y then
      blendPix (image.pix x y) (logoSrcPix image logo s x y)
    else image.pix x y

/-- Well-formed 8-bit pixel: every channel is at most 255. -/
abbrev PixWf (p : RGBA) : Prop :=
  p.1 ≤ 255 ∧ p.2.1 ≤ 255 ∧ p.2.2.1 ≤ 255 ∧ p.2.2.2 ≤ 255

theorem muldiv255_zero (x : ℕ) : muldiv255 x 0 = 0 := by
  simp [muldiv255]

theorem muldiv255_full (x : ℕ) (hx : x ≤ 255) : muldiv255 x 255 = x := by
  unfold muldiv255
  omega

/-- PIL's fixed-point `MULDIV255` is exactly rounding division by 255 on
8-bit operands. -/
theorem muldiv255_eq_round (a b : ℕ) (ha : a ≤ 255) (hb : b ≤ 255) :
    muldiv255 a b = (a * b + 127) / 255 := by
  unfold muldiv255
  have h : a * b ≤ 65025 := Nat.mul_le_mul ha hb
  omega

theorem blendChannel_mask_zero (d s : ℕ) (hd : d ≤ 255) :
    blendChannel d s 0 = d := by
  unfold blendChannel
  rw [Nat.sub_zero, muldiv255_zero, muldiv255_full d hd, Nat.add_zero]

theorem blendChannel_mask_full (d s : ℕ) (hs : s ≤ 255) :
    blendChannel d s 255 = s := by
  unfold blendChannel
  rw [Nat.sub_self, muldiv255_zero, muldiv255_full s hs, zero_add]

/-- The proportional-blend bound: 255 times the output channel is within
254 (two fixed-point roundings) of the exact convex combination
`d * (255 - a) + s * a`. -/
def chanApprox (d s a o : ℕ) : Prop :=
  d * (255 - a) + s * a ≤ 255 * o + 254 ∧ 255 * o ≤ d * (255 - a) + s * a + 254

theorem blendChannel_approx (d s a : ℕ) (hd : d ≤ 255) (hs : s ≤ 255)
    (ha : a ≤ 255) : chanApprox d s a (blendChannel d s a) := by
  unfold chanApprox blendChannel
  rw [muldiv255_eq_round d (255 - a) hd (Nat.sub_le 255 a), muldiv255_eq_round s a hs ha]
  have h1 : d * (255 - a) ≤ 255 * 255 := Nat.mul_le_mul hd (Nat.sub_le 255 a)
  have h2 : s * a ≤ 255 * 255 := Nat.mul_le_mul hs ha
  omega

/-- The channel-wise proportional-blend bound for whole pixels. -/
def blendApprox (d sp o : RGBA) : Prop :=
  chanApprox d.1 sp.1 (alphaOf sp) o.1 ∧
  chanApprox d.2.1 sp.2.1 (alphaOf sp) o.2.1 ∧
  chanApprox d.2.2.1 sp.2.2.1 (alphaOf sp) o.2.2.1 ∧
  chanApprox d.2.2.2 sp.2.2.2 (alphaOf sp) o.2.2.2

/-- Claim C6: the paste position is exactly
`(canvasW - logoW - margin, canvasH - logoH - margin)` (bottom-right
anchored), and whenever both canvas dimensions are at least
logo size + 2·margin the whole paste rectangle lies inside
`[0, canvasW) × [0, canvasH)`. -/
theorem paste_position_in_bounds (iw ih lw lh s : ℕ)
    (hw : lw + 2 * s ≤ iw) (hh : lh + 2 * s ≤ ih) :
    pastePos iw ih lw lh s = ((iw : ℤ) - lw - s, (ih : ℤ) - lh - s) ∧
    0 ≤ (pastePos iw ih lw lh s).1 ∧
    (pastePos iw ih lw lh s).1 + lw ≤ iw ∧
    0 ≤ (pastePos iw ih lw lh s).2 ∧
    (pastePos iw ih lw lh s).2 + lh ≤ ih := by
  refine ⟨rfl, ?_, ?_, ?_, ?_⟩
  · show (0 : ℤ) ≤ (iw : ℤ) - lw - s
    omega
  · show (iw : ℤ) - lw - s + lw ≤ iw
    omega
  · show (0 : ℤ) ≤ (ih : ℤ) - lh - s
    omega
  · show (ih : ℤ) - lh - s + lh ≤ ih
    omega

/-- Witness for C6 at the default geometry: 3000×3000 canvas, 300×300
logo, margin 100. -/
theorem paste_position_in_bounds_witness :
    pastePos 3000 3000 300 300 100 =
      ((3000 : ℤ) - 300 - 100, (3000 : ℤ) - 300 - 100) ∧
    0 ≤ (pastePos 3000 3000 300 300 100).1 ∧
    (pastePos 3000 3000 300 300 100).1 + 300 ≤ 3000 ∧
    0 ≤ (pastePos 3000 3000 300 300 100).2 ∧
    (pastePos 3000 3000 300 300 100).2 + 300 ≤ 3000 :=
  paste_position_in_bounds 3000 3000 300 300 100 (by decide) (by decide)

/-- Modelled from the spec: the clamping policy C7 asserts — the paste
position moved to the nearest valid offset, so the logo lies within the
canvas (the code under test, `add_logo_to_image`, is compared against
this). -/
def clampedPastePos (iw ih lw lh s : ℕ) : ℤ × ℤ :=
  (max 0 (min ((iw : ℤ) - lw) (pastePos iw ih lw lh s).1),
   max 0 (min ((ih : ℤ) - lh) (pastePos iw ih lw lh s).2))

/-- Modelled from the spec: the Compositor as C7 describes it, pasting at
the clamped position. -/
def add_logo_clamped (image logo : Raster) (s : ℕ) : Raster where
  w := image.w
  h := image.h
  pix := fun x y =>
    if (clampedPastePos image.w image.h logo.w logo.h s).1 ≤ (x : ℤ) ∧
        (x : ℤ) < (clampedPastePos image.w image.h logo.w logo.h s).1 + logo.w ∧
        (clampedPastePos image.w image.h logo.w logo.h s).2 ≤ (y : ℤ) ∧
        (y : ℤ) < (clampedPastePos image.w image.h logo.w logo.h s).2 + logo.h then
      blendPix (image.pix x y)
        (logo.pix (((x : ℤ) - (clampedPastePos image.w image.h logo.w logo.h s).1).toNat)
          (((y : ℤ) - (clampedPastePos image.w image.h logo.w logo.h s).2).toNat))
    else image.pix x y

/-- A 150×150 all-white opaque canvas. -/
def canvas150 : Raster where
  w := 150
  h := 150
  pix := fun _ _ => (255, 255, 255, 255)

/-- A 100×100 logo, opaque red on its right half (x ≥ 50) and fully
transparent on its left half. -/
def logoHalf : Raster where
  w := 100
  h := 100
  pix := fun u v => if 50 ≤ u then (255, 0, 0, 255) else (0, 0, 0, 0)

/-- Counterexample to C7 as stated: on a 150×150 canvas with a 100×100
logo and margin 100 the computed position is (-50, -50); the code does
not clamp it to the nearest valid offset (0, 0) — output pixel (0, 0)
shows logo pixel (50, 50) (PIL clipping), where the clamping policy
would show the transparent logo pixel (0, 0) and leave the canvas
white. -/
theorem compositor_clamp_counterexample :
    pastePos 150 150 100 100 100 = (-50, -50) ∧
    clampedPastePos 150 150 100 100 100 = (0, 0) ∧
    pastePos 150 150 100 100 100 ≠ clampedPastePos 150 150 100 100 100 ∧
    (add_logo_to_image canvas150 logoHalf 100).pix 0 0 = (255, 0, 0, 255) ∧
    (add_logo_clamped canvas150 logoHalf 100).pix 0 0 = (255, 255, 255, 255) := by
  refine ⟨by decide, by decide, by decide, by decide, by decide⟩

/-- Claim C7 (amended): when the computed paste position has a negative
coordinate the Compositor neither clamps nor fails — it keeps the canvas
dimensions, leaves every canvas pixel outside the clipped overlap
untouched, and blends each overlap pixel with the logo pixel at the
offset-shifted coordinate (the off-canvas part of the logo is simply
dropped). -/
theorem add_logo_clips_out_of_bounds (image logo : Raster) (s : ℕ)
    (hneg : (pastePos image.w image.h logo.w logo.h s).1 < 0 ∨
      (pastePos image.w image.h logo.w logo.h s).2 < 0) :
    (add_logo_to_image image logo s).w = image.w ∧
    (add_logo_to_image image logo s).h = image.h ∧
    (∀ x y : ℕ, ¬ overlapRect image logo s x y →
      (add_logo_to_image image logo s).pix x y = image.pix x y) ∧
    (∀ x y : ℕ, overlapRect image logo s x y →
      (add_logo_to_image image logo s).pix x y =
        blendPix (image.pix x y) (logoSrcPix image logo s x y)) := by
  refine ⟨rfl, rfl, ?_, ?_⟩
  · intro x y hno
    exact if_neg hno
  · intro x y hyes
    exact if_pos hyes

/-- Witness for C7 (amended) at the 150×150 canvas and 100×100 logo with
margin 100. -/
theorem add_logo_clips_out_of_bounds_witness :
    (add_logo_to_image canvas150 logoHalf 100).w = canvas150.w ∧
    (add_logo_to_image canvas150 logoHalf 100).h = canvas150.h ∧
    (∀ x y : ℕ, ¬ overlapRect canvas150 logoHalf 100 x y →
      (add_logo_to_image canvas150 logoHalf 100).pix x y = canvas150.pix x y) ∧
    (∀ x y : ℕ, overlapRect canvas150 logoHalf 100 x y →
      (add_logo_to_image canvas150 logoHalf 100).pix x y =
        blendPix (canvas150.pix x y) (logoSrcPix canvas150 logoHalf 100 x y)) :=
  add_logo_clips_out_of_bounds canvas150 logoHalf 100 (Or.inl (by decide))

/-- Claim C8: in the Compositor's output, every canvas pixel outside the
pasted rectangle is the input canvas pixel; inside the rectangle a fully
transparent logo pixel (alpha 0) leaves the canvas pixel unchanged, a
fully opaque logo pixel (alpha 255) fully replaces it, and any alpha
blends each channel proportionally up to PIL's fixed-point rounding. -/
theorem add_logo_alpha_blend (image logo : Raster) (s x y : ℕ)
    (hd : PixWf (image.pix x y))
    (hl : PixWf (logoSrcPix image logo s x y)) :
    (¬ overlapRect image logo s x y →
      (add_logo_to_image image logo s).pix x y = image.pix x y) ∧
    (overlapRect image logo s x y →
      alphaOf (logoSrcPix image logo s x y) = 0 →
      (add_logo_to_image image logo s).pix x y = image.pix x y) ∧
    (overlapRect image logo s x y →
      alphaOf (logoSrcPix image logo s x y) = 255 →
      (add_logo_to_image image logo s).pix x y = logoSrcPix image logo s x y) ∧
    (overlapRect image logo s x y →
      blendApprox (image.pix x y) (logoSrcPix image logo s x y)
        ((add_logo_to_image image logo s).pix x y)) := by
  obtain ⟨hd1, hd2, hd3, hd4⟩ := hd
  obtain ⟨hl1, hl2, hl3, hl4⟩ := hl
  refine ⟨?_, ?_, ?_, ?_⟩
  · intro hno
    exact if_neg hno
  · intro hyes ha
    have heq : (add_logo_to_image image logo s).pix x y =
        blendPix (image.pix x y) (logoSrcPix image logo s x y) := if_pos hyes
    rw [heq]
    unfold blendPix
    rw [ha, blendChannel_mask_zero _ _ hd1, blendChannel_mask_zero _ _ hd2,
      blendChannel_mask_zero _ _ hd3, blendChannel_mask_zero _ _ hd4]
  · intro hyes ha
    have heq : (add_logo_to_image image logo s).pix x y =
        blendPix (image.pix x y) (logoSrcPix image logo s x y) := if_pos hyes
    rw [heq]
    unfold blendPix
    rw [ha, blendChannel_mask_full _ _ hl1, blendChannel_mask_full _ _ hl2,
      blendChannel_mask_full _ _ hl3, blendChannel_mask_full _ _ hl4]
  · intro hyes
    have heq : (add_logo_to_image image logo s).pix x y =
        blendPix (image.pix x y) (logoSrcPix image logo s x y) := if_pos hyes
    rw [heq]
    exact ⟨blendChannel_approx _ _ _ hd1 hl1 hl4,
      blendChannel_approx _ _ _ hd2 hl2 hl4,
      blendChannel_approx _ _ _ hd3 hl3 hl4,
      blendChannel_approx _ _ _ hd4 hl4 hl4⟩

/-- Witness for C8 at a concrete canvas pixel in the overlap. -/
theorem add_logo_alpha_blend_witness :
    (¬ overlapRect canvas150 logoHalf 10 100 100 →
      (add_logo_to_image canvas150 logoHalf 10).pix 100 100 =
        canvas150.pix 100 100) ∧
    (overlapRect canvas150 logoHalf 10 100 100 →
      alphaOf (logoSrcPix canvas150 logoHalf 10 100 100) = 0 →
      (add_logo_to_image canvas150 logoHalf 10).pix 100 100 =
        canvas150.pix 100 100) ∧
    (overlapRect canvas150 logoHalf 10 100 100 →
      alphaOf (logoSrcPix canvas150 logoHalf 10 100 100) = 255 →
      (add_logo_to_image canvas150 logoHalf 10).pix 100 100 =
        logoSrcPix canvas150 logoHalf 10 100 100) ∧
    (overlapRect canvas150 logoHalf 10 100 100 →
      blendApprox (canvas150.pix 100 100) (logoSrcPix canvas150 logoHalf 10 100 100)
        ((add_logo_to_image canvas150 logoHalf 10).pix 100 100)) :=
  add_logo_alpha_blend canvas150 logoHalf 10 100 100 (by decide) (by decide)
